import Mathlib

/-!
Shallow embedding of the custom ingestion endpoints of
`src/stac_fastapi/pgstac/app.py` (repository
CSUMB-NRL-STAC-Tools/stac-fastapi-pgstac).

The file under `src/` contains the orchestration code: the POST
`/parse/file` endpoint (`parse_report`, lines 210-220), the
`process_archive` loop (lines 222-230) and the POST `/parse/archive`
endpoint (lines 232-236).  The leaf components it calls —
`stac_catalog.parser`, `stac_catalog.gather_reports` and
`stac_catalog.db_util` — are imported from a package that is not under
`src/`; those are modelled from the spec (each such definition's doc
comment starts with `Modelled from the spec:`).

Effectful collaborators (the network and the archive-listing resolver)
are modelled as fields of a `World` record; the catalog store is a list
of identifier/item pairs inside the same record; Python exceptions are
modelled with `Except`.  An exception raised inside an endpoint body
escapes to the framework; this is modelled by the `HTTPResult.unhandled`
constructor.
-/

deriving instance DecidableEq for Except

/-- Error taxonomy of the ingestion pipeline (spec section 7): transport
failure, unparseable archive index, domain parse failure carrying the
filename and the 1-based position of the first offending record, missing
geospatial/temporal data, and storage failure. -/
inductive StacError where
  | fetchError : StacError
  | listingFormatError : StacError
  | malformedReport (filename : String) (pos : Nat) : StacError
  | conversionError : StacError
  | storageError : StacError
deriving DecidableEq

/-- Modelled from the spec: the `DropsondeReport` produced by
`stac_catalog.parser.parse_temp_drop` (not under `src/`) — a report
identifier derived from the filename plus a non-empty, monotonically
ordered sequence of sampled timestamps (spec section 3; only the fields
the claims mention are carried). -/
structure DropsondeReport where
  reportId : String
  samples : List Int
deriving DecidableEq

/-- Modelled from the spec: the `CatalogItem` produced by
`stac_catalog.parser.convert_dropsonde_to_stac_item` (not under `src/`)
— a deterministic identifier, a temporal extent derived from the sample
timestamps, summary properties and a provenance link to the source URL
(spec sections 3 and 4.4). -/
structure StacItem where
  id : String
  startTime : Int
  endTime : Int
  sampleCount : Nat
  source : String
deriving DecidableEq

/-- Split a character list at every occurrence of the separator; always
returns at least one (possibly empty) part.  Structural-recursion
replacement for `String.splitOn`, so that concrete runs reduce inside
the kernel. -/
def splitOnChar (c : Char) : List Char → List (List Char)
  | [] => [[]]
  | a :: rest =>
    match splitOnChar c rest with
    | [] => [[]]
    | cur :: parts =>
      if a = c then [] :: cur :: parts else (a :: cur) :: parts

/-- Modelled from the spec: `stac_catalog.parser.get_filename_from_url`
(not under `src/`) — the filename is the part of the URL path after the
last slash (spec section 4.1: "a filename derived from the URL path"). -/
def get_filename_from_url (url : String) : String :=
  String.mk ((splitOnChar '/' url.data).getLastD url.data)

/-- Stem of a filename: the part before the first dot; used to derive the
report/item identifier from the filename (spec section 3: "report
identifier derived from filename", and the section 8 example where
`sonde_001.dat` yields the identifier `sonde_001`). -/
def filenameStem (s : String) : String :=
  String.mk ((splitOnChar '.' s.data).headD s.data)

/-- Parse a decimal digit string into a number, accumulator style;
`none` on any non-digit character. -/
def parseNatAux (acc : Nat) : List Char → Option Nat
  | [] => some acc
  | c :: rest =>
    if c.isDigit then parseNatAux (acc * 10 + (c.toNat - 48)) rest else none

/-- Parse an optionally-signed decimal integer token; `none` on an empty
token or bad framing. -/
def parseIntTok : List Char → Option Int
  | [] => none
  | '-' :: rest =>
    match rest with
    | [] => none
    | _ => (parseNatAux 0 rest).map (fun n => -(n : Int))
  | cs => (parseNatAux 0 cs).map (fun n => (n : Int))

/-- Modelled from the spec: one record line of the raw report format.
`stac_catalog.parser` (not under `src/`) parses a fixed text format; the
model keeps one integer timestamp per record line and checks the spec's
invariants: numeric framing and non-decreasing timestamps (spec section
4.3), reporting the 1-based position of the first offending record. -/
def parseSamples (filename : String) (pos : Nat) (prev : Option Int) :
    List (List Char) → Except StacError (List Int)
  | [] => .ok []
  | line :: rest =>
    match parseIntTok line with
    | none => .error (.malformedReport filename pos)
    | some t =>
      match prev with
      | some p =>
        if p ≤ t then
          match parseSamples filename (pos + 1) (some t) rest with
          | .error e => .error e
          | .ok ts => .ok (t :: ts)
        else .error (.malformedReport filename pos)
      | none =>
        match parseSamples filename (pos + 1) (some t) rest with
        | .error e => .error e
        | .ok ts => .ok (t :: ts)

/-- Modelled from the spec: `stac_catalog.parser.parse_temp_drop` (not
under `src/`) — a pure transformation from raw content and filename to a
`DropsondeReport`, failing with `malformedReport` on bad framing, an
out-of-order timestamp, or an empty sample sequence (spec sections 3 and
4.3).  It is a plain function of its two arguments: no clock and no
external state appear. -/
def parse_temp_drop (content : String) (filename : String) :
    Except StacError DropsondeReport :=
  let lines := (splitOnChar '\n' content.data).filter (fun l => l ≠ [])
  match lines with
  | [] => .error (.malformedReport filename 0)
  | ls =>
    match parseSamples filename 1 none ls with
    | .error e => .error e
    | .ok ts => .ok { reportId := filenameStem filename, samples := ts }

/-- Modelled from the spec:
`stac_catalog.parser.convert_dropsonde_to_stac_item` (not under `src/`)
— a pure transformation from a parsed report and its source URL to a
catalog item whose identifier is derived from the source URL's filename
(spec section 9, policy (a)), whose temporal extent is the min/max sample
timestamp, and which fails with `conversionError` when the report lacks
any usable timestamp (spec section 4.4). -/
def convert_dropsonde_to_stac_item (report : DropsondeReport)
    (url : String) : Except StacError StacItem :=
  match report.samples with
  | [] => .error .conversionError
  | t :: ts =>
    .ok { id := filenameStem (get_filename_from_url url),
          startTime := ts.foldl min t,
          endTime := ts.foldl max t,
          sampleCount := report.samples.length,
          source := url }

/-- The catalog store: identifier/item pairs (spec section 3). -/
abbrev Catalog : Type := List (String × StacItem)

/-- Modelled from the spec: `stac_catalog.db_util.add_item_to_catlog`
(not under `src/`) — an idempotent upsert keyed by the item's
deterministic identifier: writing an identifier replaces any existing
record under it rather than inserting a duplicate (spec section 4.5). -/
def add_item_to_catlog (item : StacItem) (cat : Catalog) : Catalog :=
  (item.id, item) :: cat.filter (fun p => p.1 ≠ item.id)

/-- The mutable and external state one request sees: the network (what
`stac_catalog.gather_reports.get_file_content` returns per URL), the
archive-listing resolver (what
`stac_catalog.gather_reports.iter_urls_from_archive_page` yields per
archive URL), a wall clock, and the catalog store.  Only the catalog is
ever written by the pipeline. -/
structure World where
  get_file_content : String → Except StacError String
  iter_urls_from_archive_page : String → Except StacError (List String)
  clock : Nat
  catalog : Catalog

/-- The four pipeline stages of single-item ingestion, used to trace
which stages a run attempted. -/
inductive Stage where
  | fetch : Stage
  | parse : Stage
  | convert : Stage
  | write : Stage
deriving DecidableEq

/-- The full stage order of the `/parse/file` endpoint body
(`app.py` lines 212-219). -/
def stageOrder : List Stage := [Stage.fetch, Stage.parse, Stage.convert, Stage.write]

/-- Embedding of the body of `parse_report` (POST `/parse/file`,
`app.py` lines 211-219) and equally of one iteration of the
`process_archive` loop body (lines 224-230): derive the filename from
the URL, fetch the content, parse it, convert the report, then upsert
the item into the catalog.  Each Python statement raises on failure, so
each stage short-circuits the rest; the result also records the list of
stages that were attempted.  On success the value is the produced item
identifier together with the updated world. -/
def ingest_one_traced (w : World) (url : String) :
    List Stage × Except StacError (String × World) :=
  let filename := get_filename_from_url url
  match w.get_file_content url with
  | .error e => ([Stage.fetch], .error e)
  | .ok content =>
    match parse_temp_drop content filename with
    | .error e => ([Stage.fetch, Stage.parse], .error e)
    | .ok report =>
      match convert_dropsonde_to_stac_item report url with
      | .error e => ([Stage.fetch, Stage.parse, Stage.convert], .error e)
      | .ok item =>
        ([Stage.fetch, Stage.parse, Stage.convert, Stage.write],
          .ok (item.id, { w with catalog := add_item_to_catlog item w.catalog }))

/-- The untraced single-item pipeline: the result component of
`ingest_one_traced`. -/
def ingest_one (w : World) (url : String) : Except StacError (String × World) :=
  (ingest_one_traced w url).2

/-- What the HTTP layer sees from an endpoint: either the JSON body the
handler returned, or an exception that escaped the handler unhandled
(FastAPI turns it into a 500; the handler has no try/except). -/
inductive HTTPResult where
  | success (stacItemId : String) (detail : String) : HTTPResult
  | unhandled (e : StacError) : HTTPResult
deriving DecidableEq

/-- Embedding of the POST `/parse/file` endpoint (`app.py` lines
210-220): run the pipeline; on success return the JSON body with the
item id and the fixed detail string; any stage's exception escapes the
handler unhandled, leaving the world as it was. -/
def parse_report_file (w : World) (url : String) : HTTPResult × World :=
  match ingest_one w url with
  | .error e => (.unhandled e, w)
  | .ok (i, w') =>
    (.success i "STAC item added to the catalog successfully.", w')

/-- The per-item loop of `process_archive` (`app.py` lines 223-230): run
the single-item pipeline on each URL in listing order.  The Python loop
body has no try/except, so the first per-item exception aborts the loop;
writes already performed persist.  The result records the outcome of
each attempted item (instrumentation of the loop trace), the final
world, and the escaping exception if any. -/
def process_items (w : World) :
    List String → List (String × Except StacError String) × World × Option StacError
  | [] => ([], w, none)
  | u :: rest =>
    match ingest_one w u with
    | .error e => ([(u, .error e)], w, some e)
    | .ok (i, w') =>
      match process_items w' rest with
      | (outs, w'', esc) => ((u, .ok i) :: outs, w'', esc)

/-- Embedding of `process_archive` (`app.py` lines 222-230): resolve the
archive listing for the URL, then run the per-item loop.  A listing
failure escapes with no item attempted. -/
def process_archive (w : World) (url : String) :
    List (String × Except StacError String) × World × Option StacError :=
  match w.iter_urls_from_archive_page url with
  | .error e => ([], w, some e)
  | .ok urls => process_items w urls

/-- Embedding of the POST `/parse/archive` endpoint (`app.py` lines
232-236): the handler only schedules `process_archive url` as a
background task (`background_tasks.add_task`) and returns the
acknowledgment body at once.  The result is the response detail string,
the world as the handler left it (untouched), and the list of scheduled
background tasks (the URLs whose archives will be processed after the
response is sent). -/
def parse_report_archive (w : World) (url : String) :
    String × World × List String :=
  ("Processing message archive " ++ url ++ "!", w, [url])

/-- One whole request/response cycle of POST `/parse/archive`, Starlette
semantics: the response is produced first, then the scheduled background
task runs.  The first component — the synchronous response — is fixed
before `process_archive` runs: it depends only on the data available to
the handler, never on the background run's outcomes. -/
def handle_archive_request (w : World) (url : String) :
    String × (List (String × Except StacError String) × World × Option StacError) :=
  match parse_report_archive w url with
  | (ack, w', tasks) => (ack, process_archive w' (tasks.headD url))

/-- The fetch-then-parse prefix of the single-item pipeline, exactly as
run at `app.py` lines 213-215 (and 224-226): the filename comes from the
URL, the raw bytes from the world's network, and the parse is the pure
`parse_temp_drop` call — no other component of the world is consulted. -/
def parse_stage (w : World) (url : String) : Except StacError DropsondeReport :=
  match w.get_file_content url with
  | .error e => .error e
  | .ok content => parse_temp_drop content (get_filename_from_url url)

/-- A concrete world whose archive listing at `"arch"` discovers three
item URLs, of which exactly the second (`b.dat`, content `"x"`) is
malformed; the catalog starts empty. -/
def archWorld : World :=
  { get_file_content := fun u =>
      if u = "a.dat" then .ok "1\n2"
      else if u = "b.dat" then .ok "x"
      else if u = "c.dat" then .ok "5"
      else .error .fetchError,
    iter_urls_from_archive_page := fun u =>
      if u = "arch" then .ok ["a.dat", "b.dat", "c.dat"]
      else .error .listingFormatError,
    clock := 0,
    catalog := [] }

/-- A concrete world whose archive listing at `"arch"` discovers three
item URLs, all of them well-formed; the catalog starts empty. -/
def goodWorld : World :=
  { get_file_content := fun u =>
      if u = "a.dat" then .ok "1"
      else if u = "b.dat" then .ok "2"
      else if u = "c.dat" then .ok "3"
      else .error .fetchError,
    iter_urls_from_archive_page := fun u =>
      if u = "arch" then .ok ["a.dat", "b.dat", "c.dat"]
      else .error .listingFormatError,
    clock := 0,
    catalog := [] }

/-- `goodWorld` after a successful ingestion of `"a.dat"`. -/
def goodIngestedWorld : World :=
  { goodWorld with
    catalog := [("a",
      { id := "a", startTime := 1, endTime := 1, sampleCount := 1,
        source := "a.dat" })] }

/-- `goodWorld` observed later and elsewhere: a different wall clock, a
different listing resolver and a non-empty catalog, but the same network
content. -/
def shiftedWorld : World :=
  { goodWorld with
    clock := 99,
    iter_urls_from_archive_page := fun _ => .error .listingFormatError,
    catalog := [("z",
      { id := "z", startTime := 0, endTime := 0, sampleCount := 1,
        source := "z.dat" })] }

/-- A concrete world in which every fetch fails and every listing fails. -/
def fetchFailWorld : World :=
  { get_file_content := fun _ => .error .fetchError,
    iter_urls_from_archive_page := fun _ => .error .listingFormatError,
    clock := 0,
    catalog := [] }

/-- A concrete world whose archive listing at `"arch"` resolves to zero
item URLs while every fetch fails — any attempted per-item fetch would
raise. -/
def emptyListingWorld : World :=
  { get_file_content := fun _ => .error .fetchError,
    iter_urls_from_archive_page := fun u =>
      if u = "arch" then .ok [] else .error .listingFormatError,
    clock := 0,
    catalog := [] }

/-- A concrete world serving malformed report content (a non-numeric
record) for every URL. -/
def parseFailWorld : World :=
  { get_file_content := fun _ => .ok "x",
    iter_urls_from_archive_page := fun _ => .error .listingFormatError,
    clock := 0,
    catalog := [] }

/-- Observable view of a pipeline result: the produced identifier and
the catalog state, dropping the world's function-valued fields. -/
def catalogView (r : Except StacError (String × World)) :
    Except StacError (String × Catalog) :=
  r.map (fun p => (p.1, p.2.catalog))

/-- How many records the catalog holds under a given identifier. -/
def recordsFor (i : String) (c : Catalog) : Nat :=
  (c.filter (fun p => p.1 = i)).length

/-- The identifiers of the successful outcomes of an archive run, in
outcome order. -/
def successIds (outs : List (String × Except StacError String)) : List String :=
  outs.filterMap (fun o => o.2.toOption)

/-- The catalog that results from upserting a sequence of items in
order. -/
def write_sequence (its : List StacItem) (c : Catalog) : Catalog :=
  its.foldl (fun cat it => add_item_to_catlog it cat) c

/-! ## Helper lemmas -/

/-- The per-item loop visits URLs in listing order: the outcome list's
URLs are exactly the first `k` URLs of the listing, where `k` is the
number of items the loop attempted. -/
theorem process_items_map_fst (urls : List String) (w : World) :
    ((process_items w urls).1).map Prod.fst = urls.take ((process_items w urls).1.length) := by
  induction urls generalizing w with
  | nil => simp [process_items]
  | cons u rest ih =>
    simp only [process_items]
    cases h : ingest_one w u with
    | error e => simp
    | ok p =>
      obtain ⟨i, w'⟩ := p
      have := ih w'
      cases hp : process_items w' rest with
      | mk outs q =>
        simp only [hp] at this ⊢
        simp [this]

/-- When no exception escapes the loop, every listed URL was attempted
and every outcome is a success. -/
theorem process_items_esc_none (urls : List String) (w : World) :
    (process_items w urls).2.2 = none →
      (process_items w urls).1.length = urls.length ∧
      ∀ o ∈ (process_items w urls).1, ∃ i, o.2 = Except.ok i := by
  induction urls generalizing w with
  | nil => intro _; simp [process_items]
  | cons u rest ih =>
    simp only [process_items]
    cases h : ingest_one w u with
    | error e => simp
    | ok p =>
      obtain ⟨i, w'⟩ := p
      have := ih w'
      cases hp : process_items w' rest with
      | mk outs q =>
        simp only [hp] at this ⊢
        intro hesc
        obtain ⟨hl, hall⟩ := this hesc
        constructor
        · simp [hl]
        · intro o ho
          rcases List.mem_cons.mp ho with h1 | h1
          · exact ⟨i, by simp [h1]⟩
          · exact hall o h1

/-- When an exception escapes the loop, the outcome list is a block of
successes followed by the one failing item that raised it, and no URL
past the failing one was attempted. -/
theorem process_items_esc_some (urls : List String) (w : World) (e : StacError) :
    (process_items w urls).2.2 = some e →
      ∃ pre u, (process_items w urls).1 = pre ++ [(u, Except.error e)] ∧
        (∀ o ∈ pre, ∃ i, o.2 = Except.ok i) ∧
        (process_items w urls).1.length ≤ urls.length := by
  induction urls generalizing w with
  | nil => simp [process_items]
  | cons u rest ih =>
    simp only [process_items]
    cases h : ingest_one w u with
    | error e' =>
      intro hesc
      have he : e' = e := by simpa using hesc
      subst he
      exact ⟨[], u, by simp, by simp, by simp⟩
    | ok p =>
      obtain ⟨i, w'⟩ := p
      have := ih w'
      cases hp : process_items w' rest with
      | mk outs q =>
        simp only [hp] at this ⊢
        intro hesc
        obtain ⟨pre, u', heq, hall, hlen⟩ := this hesc
        refine ⟨(u, Except.ok i) :: pre, u', by simp [heq], ?_, ?_⟩
        · intro o ho
          rcases List.mem_cons.mp ho with h1 | h1
          · exact ⟨i, by simp [h1]⟩
          · exact hall o h1
        · simpa using Nat.succ_le_succ hlen

/-- The trace of attempted stages is always an initial segment of the
fixed stage order fetch, parse, convert, write. -/
theorem ingest_one_traced_take (w : World) (url : String) :
    (ingest_one_traced w url).1 = stageOrder.take ((ingest_one_traced w url).1.length) := by
  simp only [ingest_one_traced]
  rcases hf : w.get_file_content url with e | content
  · simp [stageOrder, hf]
  · rcases hp : parse_temp_drop content (get_filename_from_url url) with e | report
    · simp [stageOrder, hf, hp]
    · rcases hc : convert_dropsonde_to_stac_item report url with e | item
      · simp [stageOrder, hf, hp, hc]
      · simp [stageOrder, hf, hp, hc]

/-- A failing pipeline never reaches the write stage, and the endpoint
handler lets the error escape unhandled with the world intact. -/
theorem ingest_one_error_cases (w : World) (url : String) (e : StacError) :
    (ingest_one_traced w url).2 = Except.error e →
      Stage.write ∉ (ingest_one_traced w url).1 ∧
      parse_report_file w url = (HTTPResult.unhandled e, w) := by
  simp only [parse_report_file, ingest_one, ingest_one_traced]
  rcases hf : w.get_file_content url with e' | content
  · simp only [hf]; intro h; simp_all
  · rcases hp : parse_temp_drop content (get_filename_from_url url) with e' | report
    · simp only [hf, hp]; intro h; simp_all
    · rcases hc : convert_dropsonde_to_stac_item report url with e' | item
      · simp only [hf, hp, hc]; intro h; simp_all
      · simp only [hf, hp, hc]; intro h; simp_all

/-- The write stage is attempted only on runs in which fetch, parse and
convert all succeeded, i.e. only on successful runs. -/
theorem ingest_one_write_success (w : World) (url : String) :
    Stage.write ∈ (ingest_one_traced w url).1 →
      ∃ i w', (ingest_one_traced w url).2 = Except.ok (i, w') := by
  simp only [ingest_one_traced]
  rcases hf : w.get_file_content url with e' | content
  · simp only [hf]; intro h; simp_all
  · rcases hp : parse_temp_drop content (get_filename_from_url url) with e' | report
    · simp only [hf, hp]; intro h; simp_all
    · rcases hc : convert_dropsonde_to_stac_item report url with e' | item
      · simp only [hf, hp, hc]; intro h; simp_all
      · simp only [hf, hp, hc]; intro h
        exact ⟨item.id, { w with catalog := add_item_to_catlog item w.catalog }, rfl⟩

/-- Upserting the same item twice leaves the catalog exactly as after
one upsert. -/
theorem add_item_to_catlog_idem (it : StacItem) (c : Catalog) :
    add_item_to_catlog it (add_item_to_catlog it c) = add_item_to_catlog it c := by
  simp [add_item_to_catlog, List.filter_filter]

/-- After an upsert, the catalog holds exactly one record under the
upserted identifier. -/
theorem add_item_to_catlog_count (it : StacItem) (c : Catalog) :
    ((add_item_to_catlog it c).filter (fun p => p.1 = it.id)).length = 1 := by
  simp [add_item_to_catlog, List.filter_filter]

/-- A successful pipeline run produces exactly one upsert: its result
identifier is the written item's identifier and the final catalog is the
initial catalog with that item upserted. -/
theorem ingest_one_ok_item (w : World) (url i : String) (w' : World)
    (h : ingest_one w url = Except.ok (i, w')) :
    ∃ item : StacItem, item.id = i ∧ w'.catalog = add_item_to_catlog item w.catalog := by
  simp only [ingest_one, ingest_one_traced] at h
  rcases hf : w.get_file_content url with e | content
  · simp only [hf] at h; simp at h
  · simp only [hf] at h
    rcases hp : parse_temp_drop content (get_filename_from_url url) with e | report
    · simp only [hp] at h; simp at h
    · simp only [hp] at h
      rcases hc : convert_dropsonde_to_stac_item report url with e | item
      · simp only [hc] at h; simp at h
      · simp only [hc] at h
        simp only [Except.ok.injEq, Prod.mk.injEq] at h
        obtain ⟨hi, hw⟩ := h
        exact ⟨item, hi, by rw [← hw]⟩

/-- The catalog after the per-item loop is the initial catalog with
exactly the successfully ingested items upserted, in outcome order: no
record is gained for a failed or unattempted item. -/
theorem process_items_catalog (urls : List String) (w : World) :
    ∃ its : List StacItem,
      its.map StacItem.id = successIds (process_items w urls).1 ∧
      ((process_items w urls).2.1).catalog = write_sequence its w.catalog := by
  induction urls generalizing w with
  | nil => exact ⟨[], rfl, rfl⟩
  | cons u rest ih =>
    simp only [process_items]
    cases h : ingest_one w u with
    | error e =>
      exact ⟨[], by simp [successIds, Except.toOption], by simp [write_sequence]⟩
    | ok p =>
      obtain ⟨i, w'⟩ := p
      obtain ⟨item, hid, hcat⟩ := ingest_one_ok_item w u i w' h
      have := ih w'
      cases hp : process_items w' rest with
      | mk outs q =>
        simp only [hp] at this ⊢
        obtain ⟨its', hmap, hfold⟩ := this
        refine ⟨item :: its', ?_, ?_⟩
        · simp [successIds, hid, hmap, Except.toOption]
        · simp only [write_sequence, List.foldl_cons]
          rw [← hcat]
          exact hfold

/-! ## Claims -/

/-- Claim C1, counterexample.  In `archWorld` the listing discovers
N = 3 item URLs and exactly one item (`b.dat`) is malformed, yet
`process_archive` yields only 2 outcomes (not 3), the catalog gains only
1 new record (not N − 1 = 2), and the malformed-report exception escapes
the loop: the claim that per-item failures are captured and processing
of the remaining URLs continues is false on the code (the loop body at
`app.py` lines 223-230 has no try/except). -/
theorem C1_counterexample :
    archWorld.iter_urls_from_archive_page "arch" =
        Except.ok ["a.dat", "b.dat", "c.dat"] ∧
      (process_archive archWorld "arch").1.length = 2 ∧
      (process_archive archWorld "arch").1.length ≠ 3 ∧
      (process_archive archWorld "arch").2.1.catalog.length = 1 ∧
      (process_archive archWorld "arch").2.2 =
        some (StacError.malformedReport "b.dat" 1) :=
  ⟨by decide, by decide, by decide, by decide, by decide⟩

/-- Claim C1, amended.  For an archive whose listing resolves to `urls`,
`process_archive` processes items strictly in listing order and yields
one outcome per attempted item: when no per-item failure occurs there is
one outcome per discovered URL, all of them successes; the first
per-item failure becomes the last outcome produced (all outcomes before
it being successes), the failing stage's error escapes the archive
operation, and the remaining URLs are not processed; and the final
catalog is the initial catalog with exactly the successfully ingested
items upserted, in order — records are gained only for the successful
prefix. -/
theorem C1_amended (w : World) (url : String) (urls : List String)
    (hl : w.iter_urls_from_archive_page url = Except.ok urls) :
    ((process_archive w url).1).map Prod.fst =
        urls.take ((process_archive w url).1.length) ∧
      ((process_archive w url).2.2 = none →
        (process_archive w url).1.length = urls.length ∧
        ∀ o ∈ (process_archive w url).1, ∃ i, o.2 = Except.ok i) ∧
      (∀ e, (process_archive w url).2.2 = some e →
        ∃ pre u', (process_archive w url).1 = pre ++ [(u', Except.error e)] ∧
          (∀ o ∈ pre, ∃ i, o.2 = Except.ok i) ∧
          (process_archive w url).1.length ≤ urls.length) ∧
      ∃ its : List StacItem,
        its.map StacItem.id = successIds (process_archive w url).1 ∧
        ((process_archive w url).2.1).catalog = write_sequence its w.catalog := by
  simp only [process_archive, hl]
  exact ⟨process_items_map_fst urls w,
    fun h => process_items_esc_none urls w h,
    fun e h => process_items_esc_some urls w e h,
    process_items_catalog urls w⟩

/-- Claim C1, witness.  In the all-successful `goodWorld`, the archive
run produces one outcome per discovered URL. -/
theorem C1_amended_witness :
    (process_archive goodWorld "arch").1.length =
      (["a.dat", "b.dat", "c.dat"] : List String).length :=
  ((C1_amended goodWorld "arch" ["a.dat", "b.dat", "c.dat"] (by decide)).2.1 (by decide)).1

/-- Claim C2, counterexample.  In `archWorld` the listing resolution
succeeds — three item URLs are discovered — yet the archive operation
still fails as a whole (an exception escapes `process_archive`), because
the second item is malformed: "fails if and only if the initial fetch or
listing resolution fails" is false on the code. -/
theorem C2_counterexample :
    archWorld.iter_urls_from_archive_page "arch" =
        Except.ok ["a.dat", "b.dat", "c.dat"] ∧
      (process_archive archWorld "arch").2.2 ≠ none :=
  ⟨by decide, by decide⟩

/-- Claim C2, amended.  The archive operation completes without an
escaping error if and only if the listing resolution succeeds AND every
attempted per-item ingestion succeeds: a per-item error does fail the
whole operation. -/
theorem C2_amended (w : World) (url : String) :
    (process_archive w url).2.2 = none ↔
      ((∃ urls, w.iter_urls_from_archive_page url = Except.ok urls) ∧
       ∀ o ∈ (process_archive w url).1, ∃ i, o.2 = Except.ok i) := by
  simp only [process_archive]
  rcases hl : w.iter_urls_from_archive_page url with e | urls
  · simp
  · constructor
    · intro hesc
      exact ⟨⟨urls, rfl⟩, (process_items_esc_none urls w hesc).2⟩
    · rintro ⟨-, hall⟩
      cases hesc : (process_items w urls).2.2 with
      | none => rfl
      | some e =>
        obtain ⟨pre, u', heq, -, -⟩ := process_items_esc_some urls w e hesc
        have hmem : (u', Except.error e) ∈ (process_items w urls).1 := by
          rw [heq]
          exact List.mem_append_right _ (List.mem_singleton.mpr rfl)
        obtain ⟨i, hi⟩ := hall _ hmem
        simp at hi

/-- Claim C3, counterexample.  When the fetch stage fails, the endpoint
handler of POST `/parse/file` does not wrap the error into any returned
outcome value: the exception escapes the handler unhandled (`app.py`
lines 210-220 contain no try/except), falsifying the claim's clause that
the stage error is "wrapped into a typed IngestionOutcome returned to
the caller (rather than escaping as an unhandled exception)". -/
theorem C3_counterexample :
    parse_report_file fetchFailWorld "u" =
      (HTTPResult.unhandled StacError.fetchError, fetchFailWorld) := rfl

/-- Claim C3, amended.  The stages of single-item ingestion run in the
order fetch, parse, convert, write (the attempted-stage trace is always
an initial segment of that order), the first failing stage
short-circuits all later stages (a failing run never reaches the write
stage), and the failing stage's error escapes the endpoint handler as an
unhandled exception with the world unchanged — it is not wrapped into a
returned outcome. -/
theorem C3_amended (w : World) (url : String) :
    (ingest_one_traced w url).1 =
        stageOrder.take ((ingest_one_traced w url).1.length) ∧
      ∀ e, (ingest_one_traced w url).2 = Except.error e →
        Stage.write ∉ (ingest_one_traced w url).1 ∧
        parse_report_file w url = (HTTPResult.unhandled e, w) :=
  ⟨ingest_one_traced_take w url, fun e h => ingest_one_error_cases w url e h⟩

/-- Claim C3, witness.  A malformed report at `p.dat` escapes the
endpoint as an unhandled `malformedReport` exception. -/
theorem C3_amended_witness :
    parse_report_file parseFailWorld "p.dat" =
      (HTTPResult.unhandled (StacError.malformedReport "p.dat" 1), parseFailWorld) :=
  ((C3_amended parseFailWorld "p.dat").2 (StacError.malformedReport "p.dat" 1) (by rfl)).2

/-- Claim C4, confirmed.  If any stage of single-item ingestion fails,
the catalog is left exactly as before the call (the write stage was
never attempted), and conversely the write stage is attempted only on
runs in which fetch, parse and convert all succeeded. -/
theorem C4_no_partial_write (w : World) (url : String) :
    (∀ e, ingest_one w url = Except.error e →
      ((parse_report_file w url).2).catalog = w.catalog ∧
      Stage.write ∉ (ingest_one_traced w url).1) ∧
    (Stage.write ∈ (ingest_one_traced w url).1 →
      ∃ i w', ingest_one w url = Except.ok (i, w')) := by
  constructor
  · intro e h
    simp only [ingest_one] at h
    obtain ⟨hnw, hep⟩ := ingest_one_error_cases w url e h
    exact ⟨by rw [hep], hnw⟩
  · intro hw
    simpa [ingest_one] using ingest_one_write_success w url hw

/-- Claim C4, witness.  A failed fetch leaves the catalog untouched. -/
theorem C4_witness :
    ((parse_report_file fetchFailWorld "v").2).catalog = fetchFailWorld.catalog :=
  ((C4_no_partial_write fetchFailWorld "v").1 StacError.fetchError (by rfl)).1

/-- Claim C5, confirmed.  The POST `/parse/archive` handler returns the
fixed acknowledgment string for the URL; the synchronous response is
identical whatever the world (so it cannot carry any per-item outcome,
which the background `process_archive` run only produces after the
response); the handler leaves the world untouched and merely schedules
`process_archive url` as a background task. -/
theorem C5_ack_before_work (w₁ w₂ : World) (url : String) :
    (handle_archive_request w₁ url).1 = "Processing message archive " ++ url ++ "!" ∧
    (handle_archive_request w₁ url).1 = (handle_archive_request w₂ url).1 ∧
    (parse_report_archive w₁ url).2.1 = w₁ ∧
    (parse_report_archive w₁ url).2.2 = [url] :=
  ⟨rfl, rfl, rfl, rfl⟩

/-- Claim C6, confirmed.  Within one archive ingestion the per-item
outcomes are produced exactly in the order the listing resolver
discovered the URLs: the outcome list's URL projection equals the
corresponding initial segment of the listing, position by position. -/
theorem C6_outcome_order (w : World) (url : String) (urls : List String)
    (hl : w.iter_urls_from_archive_page url = Except.ok urls) :
    ((process_archive w url).1).map Prod.fst =
      urls.take ((process_archive w url).1.length) := by
  simp only [process_archive, hl]
  exact process_items_map_fst urls w

/-- Claim C6, witness.  On the synthetic listing `a.dat`, `b.dat`,
`c.dat` the outcomes appear in the listing's document order. -/
theorem C6_outcome_order_witness :
    ((process_archive goodWorld "arch").1).map Prod.fst =
      ["a.dat", "b.dat", "c.dat"].take ((process_archive goodWorld "arch").1.length) :=
  C6_outcome_order goodWorld "arch" ["a.dat", "b.dat", "c.dat"] (by decide)

/-- Claim C7, confirmed.  An archive listing that resolves to zero item
URLs yields an empty outcome sequence, leaves the world (in particular
the catalog) exactly unchanged, and raises no error; since no item is
attempted, no per-item fetch, parse or write occurs (the witness world's
fetches all fail, yet the run is error-free). -/
theorem C7_empty_listing (w : World) (url : String)
    (hl : w.iter_urls_from_archive_page url = Except.ok []) :
    process_archive w url = ([], w, none) := by
  simp only [process_archive, hl]
  simp [process_items]

/-- Claim C7, witness.  In `emptyListingWorld` every fetch fails, yet
the archive run over the empty listing is an error-free no-op. -/
theorem C7_empty_listing_witness :
    process_archive emptyListingWorld "arch" = ([], emptyListingWorld, none) :=
  C7_empty_listing emptyListingWorld "arch" (by decide)

/-- Claim C8, confirmed (with the leaf components modelled from the
spec).  If ingesting a URL succeeds with identifier `i`, ingesting the
same URL again succeeds with the same identifier `i`, leaves the catalog
in exactly the state the first call left it (the second write is an
update, not a duplicate insert), and afterwards the catalog holds
exactly one record under `i`. -/
theorem C8_idempotent_ingestion (w : World) (url i : String) (w₁ : World)
    (h : ingest_one w url = Except.ok (i, w₁)) :
    catalogView (ingest_one w₁ url) = Except.ok (i, w₁.catalog) ∧
    recordsFor i w₁.catalog = 1 := by
  simp only [ingest_one, ingest_one_traced, catalogView] at h ⊢
  rcases hf : w.get_file_content url with e | content
  · simp only [hf] at h; simp at h
  · simp only [hf] at h
    rcases hp : parse_temp_drop content (get_filename_from_url url) with e | report
    · simp only [hp] at h; simp at h
    · simp only [hp] at h
      rcases hc : convert_dropsonde_to_stac_item report url with e | item
      · simp only [hc] at h; simp at h
      · simp only [hc] at h
        simp only [Except.ok.injEq, Prod.mk.injEq] at h
        obtain ⟨hi, hw⟩ := h
        subst hi
        subst hw
        simp only [hf, hp, hc]
        constructor
        · simp [Except.map, add_item_to_catlog_idem]
        · simpa [recordsFor] using add_item_to_catlog_count item w.catalog

/-- Claim C8, witness.  Re-ingesting `a.dat` after a successful first
ingestion yields the identifier `a` again and exactly one record. -/
theorem C8_idempotent_witness :
    catalogView (ingest_one goodIngestedWorld "a.dat") =
        Except.ok ("a", goodIngestedWorld.catalog) ∧
      recordsFor "a" goodIngestedWorld.catalog = 1 :=
  C8_idempotent_ingestion goodWorld "a.dat" "a" goodIngestedWorld (by rfl)

/-- Claim C9, confirmed (parser modelled from the spec as a pure
transformation).  Two runs of the fetch-then-parse stage on the same URL
in worlds that serve byte-identical raw content — but may differ in
wall clock, catalog state and every other component — produce
structurally identical `DropsondeReport` results. -/
theorem C9_parse_deterministic (w₁ w₂ : World) (url : String)
    (h : w₁.get_file_content url = w₂.get_file_content url) :
    parse_stage w₁ url = parse_stage w₂ url := by
  simp only [parse_stage, h]

/-- Claim C9, witness.  `shiftedWorld` differs from `goodWorld` in
clock, catalog and listing resolver, yet parsing `a.dat` agrees. -/
theorem C9_parse_deterministic_witness :
    parse_stage goodWorld "a.dat" = parse_stage shiftedWorld "a.dat" :=
  C9_parse_deterministic goodWorld shiftedWorld "a.dat" (by rfl)

/-- Claim C10, confirmed.  For every string supplied as the url field —
well-formed or not — the POST `/parse/archive` handler performs no
validation: it returns the acknowledgment with the supplied string
interpolated verbatim, leaves the world untouched, schedules the
background task, and surfaces no ingestion error to the caller. -/
theorem C10_verbatim_ack (w : World) (url : String) :
    parse_report_archive w url =
      ("Processing message archive " ++ url ++ "!", w, [url]) := rfl
